import Mathlib

/-!
Verification of the agent-orchestration core of the algoTrader repository.

The Python core is shallowly embedded:
- association lists / lookup functions stand in for Python dicts,
- listeners are identified by natural-number identities, with their
  behaviour (normal return or raised exception) given by an explicit
  environment of type Nat -> ... -> Except Unit Unit,
- raising code is modelled with Except, and a publish / subscribe / start
  call returns a record of the state reached plus the observable events
  (which listeners were invoked, what was delivered, whether an exception
  propagated to the caller).

Source files embedded below:
  src/core/trading_agent.py            (the function parse_time_string, class TradingAgent)
  src/core/communication_bus.py        (class CommunicationBus)
  src/core/stateful_communication_bus.py (class StatefulCommunicationBus)
  src/core/trading_hub.py              (class TradingHub)
  src/algo_toolkit/data_cache.py       (class DataCache)
-/

/-! ## Association-list helpers (Python dict, keyed by strings) -/

def lookupA {α : Type} : List (String × α) → String → Option α
  | [], _ => none
  | (k, v) :: rest, key => if k = key then some v else lookupA rest key

def updateA {α : Type} : List (String × α) → String → α → List (String × α)
  | [], key, v => [(key, v)]
  | (k, w) :: rest, key, v =>
    if k = key then (k, v) :: rest else (k, w) :: updateA rest key v

/-! ## Duration parsing: parse_time_string (src/core/trading_agent.py lines 13-28)

Python:
  match = re.match(r"(\d+)\s*(ms|milliseconds?|s|seconds?|m|minutes?|h|hours?|d|days?)",
                   time_str, re.IGNORECASE)
  if not match: raise ValueError(...)
  value, unit = int(match.group(1)), match.group(2).lower()
  if unit.startswith("ms"): return timedelta(milliseconds=value)
  if unit.startswith("s"):  return timedelta(seconds=value)
  if unit.startswith("m"):  return timedelta(minutes=value)
  if unit.startswith("h"):  return timedelta(hours=value)
  if unit.startswith("d"):  return timedelta(days=value)
  (implicit: returns None when no branch matches)

The regex is anchored at the start only; the alternation is tried left to
right, and an optional trailing "s?" is greedy, so the unit candidates in
order are: ms, milliseconds, millisecond, s, seconds, second, m, minutes,
minute, h, hours, hour, d, days, day.  A raise is modelled as Except.error,
and the implicit fall-through None as an inner Option. -/

/-- Maximal run of leading decimal digits and the rest, as regex part (\d+). -/
def takeDigits : List Char → List Char × List Char
  | [] => ([], [])
  | c :: cs =>
    if c.isDigit then
      let r := takeDigits cs
      (c :: r.1, r.2)
    else ([], c :: cs)

/-- Numeric value of a decimal digit string, as Python int(...). -/
def digitsVal (ds : List Char) : Nat :=
  ds.foldl (fun a c => 10 * a + (c.toNat - 48)) 0

/-- Skip leading whitespace, as regex part (\s*). -/
def dropSpaces : List Char → List Char
  | [] => []
  | c :: cs => if c.isWhitespace then dropSpaces cs else c :: cs

/-- Case-insensitive test that the (lowercase) pattern starts the input. -/
def matchesLower : List Char → List Char → Bool
  | [], _ => true
  | _ :: _, [] => false
  | p :: ps, c :: cs => (c.toLower = p) && matchesLower ps cs

/-- Unit alternatives of the regex, in the order the alternation tries them. -/
def unitAlternatives : List String :=
  ["ms", "milliseconds", "millisecond", "s", "seconds", "second",
   "m", "minutes", "minute", "h", "hours", "hour", "d", "days", "day"]

/-- The unit the regex captures at this position, if any. -/
def findUnit (cs : List Char) : Option String :=
  unitAlternatives.find? (fun u => matchesLower u.data cs)

/-- Literal starts-with test, as Python str.startswith. -/
def leadsWith : List Char → List Char → Bool
  | [], _ => true
  | _ :: _, [] => false
  | p :: ps, c :: cs => (c = p) && leadsWith ps cs

/-- Python datetime.timedelta, stored as its total microseconds. -/
structure Timedelta where
  us : Int
deriving DecidableEq

def Timedelta.milliseconds (n : Nat) : Timedelta := ⟨1000 * (n : Int)⟩

def Timedelta.seconds (n : Nat) : Timedelta := ⟨1000000 * (n : Int)⟩

def Timedelta.minutes (n : Nat) : Timedelta := ⟨60000000 * (n : Int)⟩

def Timedelta.hours (n : Nat) : Timedelta := ⟨3600000000 * (n : Int)⟩

def Timedelta.days (n : Nat) : Timedelta := ⟨86400000000 * (n : Int)⟩

/-- The function parse_time_string of src/core/trading_agent.py.
Except.error models the raised ValueError; the inner Option models the
implicit None return when no startswith branch matches. -/
def parse_time_string (time_str : String) : Except Unit (Option Timedelta) :=
  let p := takeDigits time_str.data
  if p.1 = [] then .error ()
  else
    match findUnit (dropSpaces p.2) with
    | none => .error ()
    | some unit =>
      let value := digitsVal p.1
      if leadsWith "ms".data unit.data then .ok (some (Timedelta.milliseconds value))
      else if leadsWith "s".data unit.data then .ok (some (Timedelta.seconds value))
      else if leadsWith "m".data unit.data then .ok (some (Timedelta.minutes value))
      else if leadsWith "h".data unit.data then .ok (some (Timedelta.hours value))
      else if leadsWith "d".data unit.data then .ok (some (Timedelta.days value))
      else .ok none

/-- Claim C6: duration-string parsing maps 500ms to 500 milliseconds, 5s to
5 seconds, 30m to 30 minutes, 2h to 2 hours, 1d to 1 day, and the inputs
abc and 5x raise a parse error rather than returning a duration. -/
theorem parse_time_string_units :
    parse_time_string "500ms" = .ok (some (Timedelta.milliseconds 500))
    ∧ parse_time_string "5s" = .ok (some (Timedelta.seconds 5))
    ∧ parse_time_string "30m" = .ok (some (Timedelta.minutes 30))
    ∧ parse_time_string "2h" = .ok (some (Timedelta.hours 2))
    ∧ parse_time_string "1d" = .ok (some (Timedelta.days 1))
    ∧ parse_time_string "abc" = .error ()
    ∧ parse_time_string "5x" = .error () := by
  refine ⟨?_, ?_, ?_, ?_, ?_, ?_, ?_⟩ <;> rfl

/-- Splitting off a maximal digit run: takeDigits on a digit string followed
by a non-digit character returns exactly that split. -/
theorem takeDigits_append (ds : List Char) (a : Char) (t : List Char)
    (hd : ∀ c ∈ ds, c.isDigit = true) (ha : a.isDigit = false) :
    takeDigits (ds ++ a :: t) = (ds, a :: t) := by
  induction ds with
  | nil => simp [takeDigits, ha]
  | cons c cs ih =>
    have hc : c.isDigit = true := hd c (List.mem_cons_self c cs)
    have ih2 := ih (fun x hx => hd x (List.mem_cons_of_mem c hx))
    simp [takeDigits, hc, ih2]

/-- Claim C9: the parser accepts the full unit words, and for a positive n
the input n followed by the word milliseconds (or millisecond) parses to a
duration of n minutes, not n milliseconds: the alternation captures the
whole word, which fails the startswith ms test and falls through to the
startswith m (minutes) branch. -/
theorem parse_full_unit_milliseconds_minutes (ds : List Char)
    (h1 : ds ≠ []) (h2 : ∀ c ∈ ds, c.isDigit = true) :
    parse_time_string (String.mk (ds ++ "milliseconds".data))
      = .ok (some (Timedelta.minutes (digitsVal ds)))
    ∧ parse_time_string (String.mk (ds ++ "millisecond".data))
      = .ok (some (Timedelta.minutes (digitsVal ds)))
    ∧ (1 ≤ digitsVal ds →
        Timedelta.minutes (digitsVal ds) ≠ Timedelta.milliseconds (digitsVal ds)) := by
  refine ⟨?_, ?_, ?_⟩
  · have h := takeDigits_append ds 'm' "illiseconds".data h2 (by decide)
    show (let p := takeDigits (ds ++ "milliseconds".data); _) = _
    rw [show ("milliseconds".data = 'm' :: "illiseconds".data) from rfl]
    simp only [parse_time_string, h]
    rw [if_neg h1]
    rfl
  · have h := takeDigits_append ds 'm' "illisecond".data h2 (by decide)
    show (let p := takeDigits (ds ++ "millisecond".data); _) = _
    rw [show ("millisecond".data = 'm' :: "illisecond".data) from rfl]
    simp only [parse_time_string, h]
    rw [if_neg h1]
    rfl
  · intro hpos heq
    have : (60000000 : Int) * (digitsVal ds : Int) = 1000 * (digitsVal ds : Int) := by
      simpa [Timedelta.minutes, Timedelta.milliseconds] using congrArg Timedelta.us heq
    omega

/-- Witness for claim C9 at the concrete input 5milliseconds. -/
theorem parse_full_unit_milliseconds_minutes_witness :
    (['5'] : List Char) ≠ []
    ∧ parse_time_string (String.mk (['5'] ++ "milliseconds".data))
        = .ok (some (Timedelta.minutes (digitsVal ['5'])))
    ∧ Timedelta.minutes (digitsVal ['5']) ≠ Timedelta.milliseconds (digitsVal ['5']) :=
  ⟨by decide,
   (parse_full_unit_milliseconds_minutes ['5'] (by decide) (by decide)).1,
   (parse_full_unit_milliseconds_minutes ['5'] (by decide) (by decide)).2.2 (by decide)⟩

/-! ## TradingAgent (src/core/trading_agent.py lines 31-98)

The agent instance state holds the fields the constructor sets; instead of
Python objects the configuration is a flat string map, instruments is the
optional attribute some subclasses add (none models hasattr being false),
and extra_methods lists the names of methods a subclass defines beyond the
base class (Python method lookup on the instance).

The async method start (lines 78-89):
  if self.agent_type == periodic: return
  now = datetime.utcnow()
  if self._last_execution_time and (now - self._last_execution_time) < self.throttle:
    return
  await self.run(data)
  self._last_execution_time = now
run is abstract; its behaviour is passed in as runBeh, which may raise.
Note the assignment to _last_execution_time sits after the await, so a run
that raises leaves _last_execution_time untouched and the exception
propagates out of start. -/

inductive AgentKind where
  | event_driven
  | periodic
deriving DecidableEq

structure TradingAgentState where
  config : List (String × String)
  agent_type : AgentKind
  throttle : Timedelta
  last_execution_time : Option Int
  instruments : Option (List String)
  extra_methods : List String
  has_trading_client : Bool
deriving DecidableEq

/-- Result of one call to TradingAgent.start: ran = some data when run(data)
was invoked, the agent state after the call, and whether an exception
propagated to the caller. -/
structure StartResult (D : Type) where
  ran : Option D
  agent : TradingAgentState
  raised : Bool
deriving DecidableEq

/-- The tail of TradingAgent.start after the throttle check admits the call:
await self.run(data); self._last_execution_time = now. -/
def startRun {D E : Type} (runBeh : D → Except E Unit) (now : Int)
    (a : TradingAgentState) (data : D) : StartResult D :=
  match runBeh data with
  | .ok _ => ⟨some data, { a with last_execution_time := some now }, false⟩
  | .error _ => ⟨some data, a, true⟩

/-- The method TradingAgent.start (src/core/trading_agent.py lines 78-89). -/
def TradingAgent.start {D E : Type} (runBeh : D → Except E Unit) (now : Int)
    (a : TradingAgentState) (data : D) : StartResult D :=
  if a.agent_type = .periodic then ⟨none, a, false⟩
  else
    match a.last_execution_time with
    | some t =>
      if now - t < a.throttle.us then ⟨none, a, false⟩
      else startRun runBeh now a data
    | none => startRun runBeh now a data

/-- An event-driven agent fresh out of construction: no execution yet. -/
def freshEventAgent (thr : Timedelta) : TradingAgentState :=
  { config := [], agent_type := .event_driven, throttle := thr,
    last_execution_time := none, instruments := none,
    extra_methods := [], has_trading_client := false }

/-- Claim C10: calling the event-driven entry point start on an agent whose
agent_type is periodic returns immediately: run is not invoked, no exception
propagates, and the agent state (config, throttle, last_execution_time and
every other field) is returned unchanged. -/
theorem start_periodic_noop {D E : Type} (runBeh : D → Except E Unit)
    (now : Int) (a : TradingAgentState) (data : D)
    (h : a.agent_type = .periodic) :
    TradingAgent.start runBeh now a data = ⟨none, a, false⟩ := by
  simp [TradingAgent.start, h]

/-- Witness for claim C10: a concrete periodic agent, start is a no-op. -/
theorem start_periodic_noop_witness :
    TradingAgent.start (fun _ : Nat => (Except.ok () : Except Unit Unit)) 123
      { config := [("period", "2s")], agent_type := .periodic,
        throttle := Timedelta.seconds 2, last_execution_time := none,
        instruments := none, extra_methods := [], has_trading_client := false } 7
    = ⟨none,
       { config := [("period", "2s")], agent_type := .periodic,
         throttle := Timedelta.seconds 2, last_execution_time := none,
         instruments := none, extra_methods := [], has_trading_client := false },
       false⟩ :=
  start_periodic_noop (fun _ : Nat => (Except.ok () : Except Unit Unit)) 123 _ 7 rfl

/-- Claim C3 (amended): on an event-driven agent, start drops the call when
the elapsed time since the recorded last execution is below the throttle
(run not invoked, state unchanged); otherwise run(data) is invoked, and the
last execution time is updated to the admission timestamp when run returns
normally, while a raising run propagates its exception and leaves the last
execution time unchanged.  With throttle 1s and runs completing normally, a
fresh agent admitted at t0 and t0 + 200ms executes run exactly once across
the pair, and admitted at t0 and t0 + 1500ms executes run twice. -/
theorem start_throttle_semantics {D E : Type} (runBeh : D → Except E Unit)
    (now t : Int) (a : TradingAgentState) (data : D) (e : E)
    (hEv : a.agent_type = .event_driven) :
    (a.last_execution_time = some t → now - t < a.throttle.us →
      TradingAgent.start runBeh now a data = ⟨none, a, false⟩)
    ∧ ((a.last_execution_time = none ∨
          (a.last_execution_time = some t ∧ ¬ now - t < a.throttle.us)) →
        runBeh data = .ok () →
        TradingAgent.start runBeh now a data
          = ⟨some data, { a with last_execution_time := some now }, false⟩)
    ∧ ((a.last_execution_time = none ∨
          (a.last_execution_time = some t ∧ ¬ now - t < a.throttle.us)) →
        runBeh data = .error e →
        TradingAgent.start runBeh now a data = ⟨some data, a, true⟩)
    ∧ ((∀ x : D, runBeh x = .ok ()) → ∀ t0 : Int,
        (let a0 := freshEventAgent (Timedelta.seconds 1)
         let r1 := TradingAgent.start runBeh t0 a0 data
         let r2 := TradingAgent.start runBeh (t0 + 200000) r1.agent data
         r1.ran = some data ∧ r2.ran = none)
        ∧
        (let a0 := freshEventAgent (Timedelta.seconds 1)
         let r1 := TradingAgent.start runBeh t0 a0 data
         let r2 := TradingAgent.start runBeh (t0 + 1500000) r1.agent data
         r1.ran = some data ∧ r2.ran = some data)) := by
  have hnp : ¬ a.agent_type = AgentKind.periodic := by rw [hEv]; intro hc; cases hc
  refine ⟨?_, ?_, ?_, ?_⟩
  · intro hlast hlt
    simp [TradingAgent.start, hnp, hlast, hlt]
  · rintro (hnone | ⟨hsome, hge⟩) hok
    · simp [TradingAgent.start, startRun, hnp, hnone, hok]
    · simp [TradingAgent.start, startRun, hnp, hsome, hge, hok]
  · rintro (hnone | ⟨hsome, hge⟩) hraise
    · simp [TradingAgent.start, startRun, hnp, hnone, hraise]
    · simp [TradingAgent.start, startRun, hnp, hsome, hge, hraise]
  · intro hok t0
    have h1 : TradingAgent.start runBeh t0 (freshEventAgent (Timedelta.seconds 1)) data
        = ⟨some data,
           { freshEventAgent (Timedelta.seconds 1) with last_execution_time := some t0 },
           false⟩ := by
      simp [TradingAgent.start, startRun, freshEventAgent, hok data]
    have harith1 : t0 + 200000 - t0 = (200000 : Int) := by omega
    have harith2 : t0 + 1500000 - t0 = (1500000 : Int) := by omega
    constructor
    · refine ⟨by rw [h1], ?_⟩
      rw [h1]
      simp [TradingAgent.start, startRun, freshEventAgent, Timedelta.seconds, harith1]
    · refine ⟨by rw [h1], ?_⟩
      rw [h1]
      simp [TradingAgent.start, startRun, freshEventAgent, Timedelta.seconds, harith2,
        hok data]

/-- Counterexample to claim C3 as stated: a fresh event-driven agent with
throttle 1s is admitted at time 0 and its run raises; run is invoked, the
exception propagates out of start, and last_execution_time is left at none
instead of being updated to the admission time as the claim requires. -/
theorem start_raising_run_cex :
    (TradingAgent.start (fun _ : Nat => (Except.error () : Except Unit Unit)) 0
        (freshEventAgent (Timedelta.seconds 1)) 5).ran = some 5
    ∧ (TradingAgent.start (fun _ : Nat => (Except.error () : Except Unit Unit)) 0
        (freshEventAgent (Timedelta.seconds 1)) 5).raised = true
    ∧ (TradingAgent.start (fun _ : Nat => (Except.error () : Except Unit Unit)) 0
        (freshEventAgent (Timedelta.seconds 1)) 5).agent.last_execution_time
      ≠ some 0 := by
  refine ⟨rfl, rfl, ?_⟩
  intro h
  cases h

/-- Witness for claim C3: concrete run of the 200ms scenario at t0 = 0. -/
theorem start_throttle_semantics_witness :
    (let a0 := freshEventAgent (Timedelta.seconds 1)
     let r1 := TradingAgent.start (fun _ : Nat => (Except.ok () : Except Unit Unit)) 0 a0 7
     let r2 := TradingAgent.start (fun _ : Nat => (Except.ok () : Except Unit Unit))
       ((0 : Int) + 200000) r1.agent 7
     r1.ran = some 7 ∧ r2.ran = none) :=
  ((start_throttle_semantics (fun _ : Nat => (Except.ok () : Except Unit Unit)) 0 0
      (freshEventAgent (Timedelta.seconds 1)) 7 () rfl).2.2.2 (fun _ => rfl) 0).1

/-! ## CommunicationBus (src/core/communication_bus.py)

Listeners are identified by Nat; a topic maps to its set of listeners,
kept as an insertion-ordered duplicate-free list (Python set identity).
The behaviour of listener m on value v is beh m v (raising = error); the
coroutine-function test is the predicate isAsync.

publish (lines 14-27): reads the listener set; returns silently when it is
empty; otherwise walks the listeners, calling synchronous ones immediately
(an exception aborts the walk and propagates: there is no try around the
call) and collecting coroutines of asynchronous ones; finally awaits the
collected coroutines with asyncio.gather, which runs all of them and
propagates the first exception.  If a synchronous listener raised, the
collected coroutines are never awaited, so they never run. -/

structure CommunicationBus where
  subscription_repository : List (String × List Nat)
deriving DecidableEq

def busListeners (bus : CommunicationBus) (topic : String) : List Nat :=
  (lookupA bus.subscription_repository topic).getD []

/-- The method subscribe_listener (lines 10-12):
self.subscription_repository.setdefault(topic_name, set()).add(listener). -/
def CommunicationBus.subscribe_listener (bus : CommunicationBus) (topic : String)
    (l : Nat) : CommunicationBus :=
  let cur := busListeners bus topic
  ⟨updateA bus.subscription_repository topic (if l ∈ cur then cur else cur ++ [l])⟩

def isErr {ε α : Type} : Except ε α → Bool
  | .ok _ => false
  | .error _ => true

/-- Observable outcome of one publish: the listeners whose bodies actually
ran, and whether an exception propagated to the publishing caller. -/
structure PublishResult where
  invoked : List Nat
  raised : Bool
deriving DecidableEq

/-- First phase of publish: the loop over the listener set.  Returns the
synchronous listeners that ran, the collected (not yet awaited) coroutines
of asynchronous listeners, and whether a synchronous listener raised (which
aborts the loop at that point). -/
def fanOutSync (beh : Nat → Except Unit Unit) (isAsync : Nat → Bool) :
    List Nat → List Nat × List Nat × Bool
  | [] => ([], [], false)
  | l :: rest =>
    if isAsync l then
      let r := fanOutSync beh isAsync rest
      (r.1, l :: r.2.1, r.2.2)
    else
      match beh l with
      | .ok _ =>
        let r := fanOutSync beh isAsync rest
        (l :: r.1, r.2.1, r.2.2)
      | .error _ => ([l], [], true)

/-- The method publish (lines 14-27). -/
def CommunicationBus.publish {V : Type} (beh : Nat → V → Except Unit Unit)
    (isAsync : Nat → Bool) (bus : CommunicationBus) (topic : String) (v : V) :
    PublishResult :=
  let ls := busListeners bus topic
  if ls = [] then ⟨[], false⟩
  else
    let r := fanOutSync (fun m => beh m v) isAsync ls
    if r.2.2 then ⟨r.1, true⟩
    else ⟨r.1 ++ r.2.1, r.2.1.any (fun m => isErr (beh m v))⟩

/-- The fan-out loop on a listener list whose first raising listener is l:
the successful ones before l run, l runs and raises, the loop aborts. -/
theorem fanOutSync_raise (beh : Nat → Except Unit Unit) (isAsync : Nat → Bool)
    (pre post : List Nat) (l : Nat)
    (hpre : ∀ p ∈ pre, isAsync p = false ∧ beh p = .ok ())
    (hl : isAsync l = false) (hraise : beh l = .error ()) :
    fanOutSync beh isAsync (pre ++ l :: post) = (pre ++ [l], [], true) := by
  induction pre with
  | nil => simp [fanOutSync, hl, hraise]
  | cons p ps ih =>
    have hp := hpre p (List.mem_cons_self p ps)
    have ih2 := ih (fun x hx => hpre x (List.mem_cons_of_mem p hx))
    simp [fanOutSync, hp.1, hp.2, ih2]

/-- Claim C1 (amended): listener invocations during publish are not
isolated.  If the listener set for the topic is pre ++ l :: post where the
listeners of pre are synchronous and return normally, and l is synchronous
and raises, then publish invokes exactly pre ++ [l]: the exception
propagates to the publishing caller, the publish does not complete the
fan-out, and no listener after l (nor any collected asynchronous listener)
is invoked. -/
theorem publish_listener_raise_not_isolated {V : Type}
    (beh : Nat → V → Except Unit Unit) (isAsync : Nat → Bool)
    (bus : CommunicationBus) (topic : String) (v : V)
    (pre post : List Nat) (l : Nat)
    (hls : busListeners bus topic = pre ++ l :: post)
    (hpre : ∀ p ∈ pre, isAsync p = false ∧ beh p v = .ok ())
    (hl : isAsync l = false) (hraise : beh l v = .error ()) :
    CommunicationBus.publish beh isAsync bus topic v = ⟨pre ++ [l], true⟩ := by
  have hfan := fanOutSync_raise (fun m => beh m v) isAsync pre post l
    (fun p hp => hpre p hp) hl hraise
  simp [CommunicationBus.publish, hls, hfan]

/-- Environment of the concrete counterexample: listener 1 raises, every
other listener returns normally, all listeners are synchronous. -/
def cexBeh (l : Nat) (_v : Nat) : Except Unit Unit :=
  if l = 1 then .error () else .ok ()

def noAsync (_l : Nat) : Bool := false

/-- A bus with listeners 1 and 2 subscribed to topic T, in that order. -/
def cexBus : CommunicationBus :=
  CommunicationBus.subscribe_listener
    (CommunicationBus.subscribe_listener ⟨[]⟩ "T" 1) "T" 2

/-- Counterexample to claim C1 as stated: on a bus with listeners 1 and 2
subscribed to topic T, where listener 1 raises, publish invokes only
listener 1: listener 2 is never invoked with the value and the exception
propagates to the publishing caller, so the publish does not complete. -/
theorem publish_listener_raise_cex :
    CommunicationBus.publish cexBeh noAsync cexBus "T" 0 = ⟨[1], true⟩
    ∧ 2 ∉ (CommunicationBus.publish cexBeh noAsync cexBus "T" 0).invoked
    ∧ (CommunicationBus.publish cexBeh noAsync cexBus "T" 0).raised = true := by
  refine ⟨by decide, by decide, by decide⟩

/-- Witness for claim C1 at the concrete counterexample environment. -/
theorem publish_listener_raise_not_isolated_witness :
    CommunicationBus.publish cexBeh noAsync cexBus "T" 0 = ⟨[] ++ [1], true⟩ :=
  publish_listener_raise_not_isolated cexBeh noAsync cexBus "T" 0 [] [2] 1
    (by decide) (by intro p hp; cases hp) rfl rfl

/-! ## StatefulCommunicationBus (src/core/stateful_communication_bus.py)

Adds last-value tracking.  subscribe_listener (lines 14-25) returns at once
if the listener is already subscribed; otherwise it adds the listener and,
if the topic has a last value, delivers (topic, value) to the new listener
inside the subscribe call, awaiting it; an exception from that delivery
propagates (the listener stays added).  publish (lines 27-43) records the
value in last_value_repository first, then fans out exactly as the plain
bus does, passing (topic, value) to each listener. -/

theorem lookupA_updateA_self {α : Type} (d : List (String × α)) (k : String) (v : α) :
    lookupA (updateA d k v) k = some v := by
  induction d with
  | nil => simp [updateA, lookupA]
  | cons p rest ih =>
    by_cases h : p.1 = k
    · simp [updateA, lookupA, h]
    · simp [updateA, lookupA, h, ih]

theorem updateA_updateA {α : Type} (d : List (String × α)) (k : String) (v w : α) :
    updateA (updateA d k v) k w = updateA d k w := by
  induction d with
  | nil => simp [updateA]
  | cons p rest ih =>
    by_cases h : p.1 = k
    · simp [updateA, h]
    · simp [updateA, h, ih]

structure StatefulCommunicationBus (V : Type) where
  subscription_repository : List (String × List Nat)
  last_value_repository : List (String × V)
deriving DecidableEq

def StatefulCommunicationBus.listenersOf {V : Type}
    (bus : StatefulCommunicationBus V) (topic : String) : List Nat :=
  (lookupA bus.subscription_repository topic).getD []

/-- Observable outcome of one stateful subscribe: the bus afterwards, the
replay deliveries made during the call, and whether the replay raised. -/
structure SubscribeResult (V : Type) where
  bus : StatefulCommunicationBus V
  delivered : List (Nat × String × V)
  raised : Bool
deriving DecidableEq

/-- The method subscribe_listener (lines 14-25). -/
def StatefulCommunicationBus.subscribe_listener {V : Type}
    (beh : Nat → String → V → Except Unit Unit)
    (bus : StatefulCommunicationBus V) (topic : String) (l : Nat) :
    SubscribeResult V :=
  if l ∈ bus.listenersOf topic then ⟨bus, [], false⟩
  else
    let bus1 : StatefulCommunicationBus V :=
      ⟨updateA bus.subscription_repository topic (bus.listenersOf topic ++ [l]),
       bus.last_value_repository⟩
    match lookupA bus.last_value_repository topic with
    | none => ⟨bus1, [], false⟩
    | some v =>
      match beh l topic v with
      | .ok _ => ⟨bus1, [(l, topic, v)], false⟩
      | .error _ => ⟨bus1, [], true⟩

structure StatefulPublishResult (V : Type) where
  bus : StatefulCommunicationBus V
  invoked : List Nat
  raised : Bool
deriving DecidableEq

/-- Line 29 of publish: self.last_value_repository[topic_name] = value. -/
def StatefulCommunicationBus.recordLast {V : Type}
    (bus : StatefulCommunicationBus V) (topic : String) (v : V) :
    StatefulCommunicationBus V :=
  ⟨bus.subscription_repository, updateA bus.last_value_repository topic v⟩

/-- The method publish (lines 27-43): records the last value, then fans out. -/
def StatefulCommunicationBus.publish {V : Type}
    (beh : Nat → String → V → Except Unit Unit) (isAsync : Nat → Bool)
    (bus : StatefulCommunicationBus V) (topic : String) (v : V) :
    StatefulPublishResult V :=
  let bus1 := bus.recordLast topic v
  let ls := bus1.listenersOf topic
  if ls = [] then ⟨bus1, [], false⟩
  else
    let r := fanOutSync (fun m => beh m topic v) isAsync ls
    if r.2.2 then ⟨bus1, r.1, true⟩
    else ⟨bus1, r.1 ++ r.2.1, r.2.1.any (fun m => isErr (beh m topic v))⟩

/-- The fan-out loop when no listener raises: every synchronous listener
runs in order, every asynchronous listener is collected and then run by
gather, and no exception escapes. -/
theorem fanOutSync_all_ok (beh : Nat → Except Unit Unit) (isAsync : Nat → Bool)
    (ls : List Nat) (h : ∀ m ∈ ls, beh m = .ok ()) :
    fanOutSync beh isAsync ls
      = (ls.filter (fun m => !(isAsync m)), ls.filter (fun m => isAsync m), false) := by
  induction ls with
  | nil => rfl
  | cons x xs ih =>
    have hx := h x (List.mem_cons_self x xs)
    have ih2 := ih (fun m hm => h m (List.mem_cons_of_mem x hm))
    cases ha : isAsync x <;> simp [fanOutSync, ha, hx, ih2]

/-- The bus a stateful publish returns always carries the recorded last
value, whatever the fan-out did. -/
theorem stateful_publish_bus {V : Type} (beh : Nat → String → V → Except Unit Unit)
    (isAsync : Nat → Bool) (bus : StatefulCommunicationBus V) (topic : String) (v : V) :
    (StatefulCommunicationBus.publish beh isAsync bus topic v).bus
      = bus.recordLast topic v := by
  simp only [StatefulCommunicationBus.publish]
  split
  · rfl
  · split <;> rfl

/-- When no listener of the topic raises, publish invokes every subscribed
listener of the topic. -/
theorem publish_invokes_all {V : Type} (beh : Nat → String → V → Except Unit Unit)
    (isAsync : Nat → Bool) (bus : StatefulCommunicationBus V) (topic : String)
    (v : V) (l : Nat) (hallok : ∀ m, beh m topic v = .ok ())
    (hl : l ∈ bus.listenersOf topic) :
    l ∈ (StatefulCommunicationBus.publish beh isAsync bus topic v).invoked := by
  have hls : (bus.recordLast topic v).listenersOf topic = bus.listenersOf topic := rfl
  have hne : ¬ bus.listenersOf topic = [] := by
    intro h
    rw [h] at hl
    cases hl
  have hfan := fanOutSync_all_ok (fun m => beh m topic v) isAsync
    (bus.listenersOf topic) (fun m _ => hallok m)
  simp only [StatefulCommunicationBus.publish, hls, hfan]
  rw [if_neg hne]
  cases ha : isAsync l <;>
    simp [List.mem_append, List.mem_filter, hl, ha]

/-- The bus state after a stateful subscribe of a not yet subscribed
listener: the listener is added to the set of the topic; the last-value
store is untouched; this holds whether or not the replay raised. -/
theorem stateful_subscribe_bus {V : Type} (beh : Nat → String → V → Except Unit Unit)
    (bus : StatefulCommunicationBus V) (topic : String) (l : Nat)
    (hnot : l ∉ bus.listenersOf topic) :
    (StatefulCommunicationBus.subscribe_listener beh bus topic l).bus
      = ⟨updateA bus.subscription_repository topic (bus.listenersOf topic ++ [l]),
         bus.last_value_repository⟩ := by
  simp only [StatefulCommunicationBus.subscribe_listener]
  rw [if_neg hnot]
  split
  · rfl
  · split <;> rfl

/-- Claim C4: the stateful bus records the published value as the last
value of the topic before (atomically with) fan-out, so it is recorded even
if the fan-out raises; a subscribe performed when the topic has a last
value delivers exactly that value to the newly added listener during the
subscribe call itself; a subscribe on a topic with no prior publish
delivers nothing and raises nothing, and the listener then receives the
first publish on the topic. -/
theorem stateful_bus_replay {V : Type} (beh : Nat → String → V → Except Unit Unit)
    (isAsync : Nat → Bool) (bus : StatefulCommunicationBus V) (topic : String)
    (v v0 : V) (l : Nat) :
    lookupA (StatefulCommunicationBus.publish beh isAsync bus topic v).bus.last_value_repository
        topic = some v
    ∧ (l ∉ bus.listenersOf topic →
        lookupA bus.last_value_repository topic = some v0 →
        beh l topic v0 = .ok () →
        (StatefulCommunicationBus.subscribe_listener beh bus topic l).delivered
          = [(l, topic, v0)])
    ∧ (l ∉ bus.listenersOf topic →
        lookupA bus.last_value_repository topic = none →
        (StatefulCommunicationBus.subscribe_listener beh bus topic l).delivered = []
        ∧ (StatefulCommunicationBus.subscribe_listener beh bus topic l).raised = false)
    ∧ (l ∉ bus.listenersOf topic →
        (∀ m, beh m topic v = .ok ()) →
        l ∈ (StatefulCommunicationBus.publish beh isAsync
              (StatefulCommunicationBus.subscribe_listener beh bus topic l).bus
              topic v).invoked) := by
  refine ⟨?_, ?_, ?_, ?_⟩
  · rw [stateful_publish_bus]
    simp [StatefulCommunicationBus.recordLast, lookupA_updateA_self]
  · intro hnot hlast hok
    simp [StatefulCommunicationBus.subscribe_listener, hnot, hlast, hok]
  · intro hnot hlast
    simp [StatefulCommunicationBus.subscribe_listener, hnot, hlast]
  · intro hnot hallok
    apply publish_invokes_all beh isAsync _ topic v l hallok
    rw [stateful_subscribe_bus beh bus topic l hnot]
    simp [StatefulCommunicationBus.listenersOf, lookupA_updateA_self]

/-- Witness for claim C4: publish 42 on topic T of an empty bus, then
subscribe listener 3: the subscribe call itself delivers (T, 42) to 3. -/
theorem stateful_bus_replay_witness :
    (StatefulCommunicationBus.subscribe_listener
        (fun _ _ _ => (Except.ok () : Except Unit Unit))
        (⟨[], [("T", 42)]⟩ : StatefulCommunicationBus Nat) "T" 3).delivered
      = [(3, "T", 42)] :=
  (stateful_bus_replay (fun _ _ _ => (Except.ok () : Except Unit Unit))
      (fun _ => false) (⟨[], [("T", 42)]⟩ : StatefulCommunicationBus Nat)
      "T" 42 42 3).2.1 (by intro h; cases h) rfl rfl

/-- The listener set of a topic right after subscribing a listener to it on
the plain bus. -/
theorem busListeners_subscribe (bus : CommunicationBus) (topic : String) (l : Nat) :
    busListeners (bus.subscribe_listener topic l) topic
      = (if l ∈ busListeners bus topic then busListeners bus topic
         else busListeners bus topic ++ [l]) := by
  simp [CommunicationBus.subscribe_listener, busListeners, lookupA_updateA_self]

/-- Unfolded form of the plain-bus subscribe_listener. -/
theorem subscribe_repo (bus : CommunicationBus) (topic : String) (l : Nat) :
    bus.subscribe_listener topic l
      = ⟨updateA bus.subscription_repository topic
          (if l ∈ busListeners bus topic then busListeners bus topic
           else busListeners bus topic ++ [l])⟩ := rfl

/-- Claim C8: bus subscription has idempotent set semantics.  On the plain
bus, subscribing the same listener to the same topic twice leaves exactly
the state of subscribing it once.  On the stateful bus, re-subscribing an
already subscribed listener is a complete no-op: the bus state is returned
unchanged and in particular the last-value replay is not delivered a second
time (the second call delivers nothing and raises nothing). -/
theorem subscribe_idempotent {V : Type} (beh : Nat → String → V → Except Unit Unit)
    (bus : CommunicationBus) (sbus : StatefulCommunicationBus V)
    (topic : String) (l : Nat) :
    (bus.subscribe_listener topic l).subscribe_listener topic l
      = bus.subscribe_listener topic l
    ∧ StatefulCommunicationBus.subscribe_listener beh
        (StatefulCommunicationBus.subscribe_listener beh sbus topic l).bus topic l
      = ⟨(StatefulCommunicationBus.subscribe_listener beh sbus topic l).bus, [], false⟩ := by
  constructor
  · have hx : l ∈ (if l ∈ busListeners bus topic then busListeners bus topic
        else busListeners bus topic ++ [l]) := by
      split
      · assumption
      · simp
    rw [subscribe_repo (bus.subscribe_listener topic l) topic l,
      busListeners_subscribe, if_pos hx, subscribe_repo bus topic l]
    simp [updateA_updateA]
  · have hmem : l ∈ (StatefulCommunicationBus.subscribe_listener beh sbus topic l).bus.listenersOf
        topic := by
      by_cases h : l ∈ sbus.listenersOf topic
      · have h1 : StatefulCommunicationBus.subscribe_listener beh sbus topic l
            = ⟨sbus, [], false⟩ := by
          simp [StatefulCommunicationBus.subscribe_listener, h]
        rw [h1]
        exact h
      · rw [stateful_subscribe_bus beh sbus topic l h]
        simp [StatefulCommunicationBus.listenersOf, lookupA_updateA_self]
    generalize (StatefulCommunicationBus.subscribe_listener beh sbus topic l).bus = b at hmem ⊢
    simp [StatefulCommunicationBus.subscribe_listener, hmem]

/-! ## TradingHub (src/core/trading_hub.py)

add_agent (lines 27-39):
  agent.set_trading_client(self.alpaca_trading)
  agent.set_communication_bus(self.communication_bus)
  if agent.agent_type == periodic: periodic_agents.append(agent)
  else:
    event_agents.append(agent)
    if hasattr(agent, instruments-attribute) and agent.instruments:
      self._subscribed_quotes.update(agent.instruments)
Python resolves each method call by name on the instance; a call to a name
neither the TradingAgent base class nor the subclass defines raises
AttributeError.  The base class of src/core/trading_agent.py defines
exactly the methods listed below -- set_communication_bus is not among
them, and no subclass in the repository defines it either. -/

/-- The methods the TradingAgent class body defines (src/core/trading_agent.py). -/
def tradingAgentBaseMethods : List String :=
  ["initialize", "set_trading_client", "set_throttle", "start", "run", "validate_config"]

/-- Python attribute lookup for a method name on an agent instance. -/
def hasMethod (a : TradingAgentState) (m : String) : Bool :=
  tradingAgentBaseMethods.contains m || a.extra_methods.contains m

structure TradingHubState where
  event_agents : List TradingAgentState
  periodic_agents : List TradingAgentState
  subscribed_quotes : List String
deriving DecidableEq

/-- Python set.update with an iterable of symbols. -/
def addQuotes : List String → List String → List String
  | qs, [] => qs
  | qs, i :: rest => addQuotes (if i ∈ qs then qs else qs ++ [i]) rest

/-- The method add_agent (src/core/trading_hub.py lines 27-39).  The error
value models the AttributeError a missing method raises at the call. -/
def TradingHub.add_agent (hub : TradingHubState) (agent : TradingAgentState) :
    Except String (TradingHubState × TradingAgentState) :=
  if hasMethod agent "set_trading_client" = false then
    .error "AttributeError: set_trading_client"
  else
    let agent1 := { agent with has_trading_client := true }
    if hasMethod agent1 "set_communication_bus" = false then
      .error "AttributeError: set_communication_bus"
    else
      if agent1.agent_type = .periodic then
        .ok ({ hub with periodic_agents := hub.periodic_agents ++ [agent1] }, agent1)
      else
        let quotes :=
          match agent1.instruments with
          | some ins =>
            if ins ≠ [] then addQuotes hub.subscribed_quotes ins
            else hub.subscribed_quotes
          | none => hub.subscribed_quotes
        .ok ({ hub with
                event_agents := hub.event_agents ++ [agent1],
                subscribed_quotes := quotes }, agent1)

/-- A representative agent: event-driven, interested in SPY, defining only
the abstract run method beyond the base class. -/
def c2Agent : TradingAgentState :=
  { config := [("instruments", "SPY")], agent_type := .event_driven,
    throttle := Timedelta.seconds 1, last_execution_time := none,
    instruments := some ["SPY"], extra_methods := ["run"],
    has_trading_client := false }

def c2Hub : TradingHubState := ⟨[], [], []⟩

/-- Claim C2, evaluated at the failing input: registration of an ordinary
TradingAgent does not complete.  The hub calls agent.set_communication_bus,
a method neither the base class nor the agent defines, so add_agent raises
AttributeError before classifying the agent, for event-driven and for
periodic agents alike; the injection of the trading client is the only step
that succeeds. -/
theorem add_agent_missing_bus_setter :
    TradingHub.add_agent c2Hub c2Agent
      = .error "AttributeError: set_communication_bus"
    ∧ TradingHub.add_agent c2Hub { c2Agent with agent_type := .periodic }
      = .error "AttributeError: set_communication_bus"
    ∧ hasMethod c2Agent "set_trading_client" = true
    ∧ hasMethod c2Agent "set_communication_bus" = false := by
  refine ⟨rfl, rfl, by decide, by decide⟩

/-! ## Periodic agent loop (src/core/trading_hub.py lines 46-55)

  while True:
    try: await agent.run()
    except Exception as e: logger.exception(...)
    await asyncio.sleep(agent.throttle.total_seconds())

The loop is driven by the outcome of each run() call (runBeh i for
iteration i).  The trace records the observable events; the Option String
component of an iteration or of the whole loop is an exception escaping it,
which would terminate the loop -- the except clause makes it none. -/

inductive LoopEv where
  | invoked (i : Nat)
  | logged (i : Nat)
  | slept (i : Nat)
deriving DecidableEq

/-- The call await agent.run() of iteration i: run is invoked; an error
outcome escapes the call. -/
def runAgentOnce (runBeh : Nat → Except String Unit) (i : Nat) :
    List LoopEv × Option String :=
  match runBeh i with
  | .ok _ => ([LoopEv.invoked i], none)
  | .error e => ([LoopEv.invoked i], some e)

/-- One iteration of the loop body: the try/except around run() turns any
escaping exception into a log entry, then the inter-iteration sleep runs. -/
def periodicLoopIter (runBeh : Nat → Except String Unit) (i : Nat) :
    List LoopEv × Option String :=
  let r := runAgentOnce runBeh i
  let afterTry : List LoopEv × Option String :=
    match r.2 with
    | some _ => (r.1 ++ [LoopEv.logged i], none)
    | none => (r.1, none)
  (afterTry.1 ++ [LoopEv.slept i], afterTry.2)

/-- The while True loop, observed for n iterations.  An exception escaping
an iteration (second component) would stop the loop at that point. -/
def periodicAgentLoop (runBeh : Nat → Except String Unit) :
    Nat → List LoopEv × Option String
  | 0 => ([], none)
  | n + 1 =>
    let r := periodicAgentLoop runBeh n
    match r.2 with
    | some e => (r.1, some e)
    | none =>
      let s := periodicLoopIter runBeh n
      (r.1 ++ s.1, s.2)

theorem periodicLoopIter_none (runBeh : Nat → Except String Unit) (i : Nat) :
    (periodicLoopIter runBeh i).2 = none := by
  cases h : runBeh i <;> simp [periodicLoopIter, runAgentOnce, h]

theorem periodicAgentLoop_none (runBeh : Nat → Except String Unit) (n : Nat) :
    (periodicAgentLoop runBeh n).2 = none := by
  induction n with
  | zero => rfl
  | succ n ih => simp [periodicAgentLoop, ih, periodicLoopIter_none]

theorem periodicAgentLoop_trace (runBeh : Nat → Except String Unit) (n : Nat) :
    (periodicAgentLoop runBeh (n + 1)).1
      = (periodicAgentLoop runBeh n).1 ++ (periodicLoopIter runBeh n).1 := by
  simp [periodicAgentLoop, periodicAgentLoop_none]

theorem periodicLoopIter_events (runBeh : Nat → Except String Unit) (i : Nat) :
    LoopEv.invoked i ∈ (periodicLoopIter runBeh i).1
    ∧ LoopEv.slept i ∈ (periodicLoopIter runBeh i).1
    ∧ (∀ e, runBeh i = .error e → LoopEv.logged i ∈ (periodicLoopIter runBeh i).1) := by
  cases h : runBeh i <;> simp [periodicLoopIter, runAgentOnce, h]

/-- Claim C7: over any schedule of run outcomes, the periodic loop never
terminates (no exception reaches the supervising loop), every iteration
below the observation bound invokes run and performs the inter-iteration
sleep, and an iteration whose run raises gets the exception caught and
logged at the call site -- so an exception in one iteration never prevents
any later iteration. -/
theorem periodic_loop_isolation (runBeh : Nat → Except String Unit) (n i : Nat)
    (hi : i < n) :
    (periodicAgentLoop runBeh n).2 = none
    ∧ LoopEv.invoked i ∈ (periodicAgentLoop runBeh n).1
    ∧ LoopEv.slept i ∈ (periodicAgentLoop runBeh n).1
    ∧ (∀ e, runBeh i = .error e → LoopEv.logged i ∈ (periodicAgentLoop runBeh n).1) := by
  refine ⟨periodicAgentLoop_none runBeh n, ?_⟩
  induction n with
  | zero => omega
  | succ n ih =>
    rw [periodicAgentLoop_trace]
    rcases Nat.lt_succ_iff_lt_or_eq.mp hi with h | h
    · have ih2 := ih h
      exact ⟨List.mem_append_left _ ih2.1, List.mem_append_left _ ih2.2.1,
        fun e he => List.mem_append_left _ (ih2.2.2 e he)⟩
    · subst h
      have he := periodicLoopIter_events runBeh i
      exact ⟨List.mem_append_right _ he.1, List.mem_append_right _ he.2.1,
        fun e h2 => List.mem_append_right _ (he.2.2 e h2)⟩

/-- Run outcomes for the witness: the first iteration raises, later ones
return normally. -/
def c7Beh : Nat → Except String Unit := fun i => if i = 0 then .error "boom" else .ok ()

/-- Witness for claim C7: with a run that raises in iteration 0, the loop
still reaches and runs iteration 1, and the iteration-0 exception is logged. -/
theorem periodic_loop_isolation_witness :
    (periodicAgentLoop c7Beh 2).2 = none
    ∧ LoopEv.invoked 1 ∈ (periodicAgentLoop c7Beh 2).1
    ∧ LoopEv.logged 0 ∈ (periodicAgentLoop c7Beh 2).1 :=
  ⟨(periodic_loop_isolation c7Beh 2 0 (by decide)).1,
   (periodic_loop_isolation c7Beh 2 1 (by decide)).2.1,
   (periodic_loop_isolation c7Beh 2 0 (by decide)).2.2.2 "boom" rfl⟩

/-! ## DataCache (src/algo_toolkit/data_cache.py)

Python values are modelled by PyObj; a Python dict is modelled
extensionally as its lookup function String -> Option PyObj (the cache
operations never depend on key order or dict identity).  The cache itself
is the top-level dict.  Paths are split on the slash exactly as
str.split("/") does.

  set(path, value): walks keys[:-1] with d = d.setdefault(key, {}); a fresh
    dict is created for a missing key; reaching an existing non-dict value
    makes the following subscript raise (modelled as Except.error, in which
    case nothing observable was mutated); finally d[keys[-1]] = value.
  get(path, default=None): walks all keys, returning default as soon as the
    current value is not a dict or lacks the key.
  exists(path): get(path, default=None) is not None.
  delete(path): walks keys[:-1], returning False when a key is missing or
    not a dict; finally d.pop(keys[-1], None) is not None -- so popping a
    stored None removes the binding yet returns False. -/

inductive PyObj where
  | none : PyObj
  | int : Int → PyObj
  | str : String → PyObj
  | dict : (String → Option PyObj) → PyObj

/-- Python test x is None. -/
def PyObj.isNone : PyObj → Bool
  | .none => true
  | _ => false

/-- The empty dict. -/
def dEmpty : String → Option PyObj := fun _ => Option.none

/-- Dict item assignment d[k] = v. -/
def dSet (f : String → Option PyObj) (k : String) (v : PyObj) :
    String → Option PyObj :=
  fun k2 => if k2 = k then some v else f k2

/-- Dict item removal (pop). -/
def dRemove (f : String → Option PyObj) (k : String) : String → Option PyObj :=
  fun k2 => if k2 = k then Option.none else f k2

/-- Python str.split("/"): accumulates the current segment in acc. -/
def splitSlashAux : List Char → List Char → List String
  | [], acc => [String.mk acc.reverse]
  | c :: rest, acc =>
    if c = '/' then String.mk acc.reverse :: splitSlashAux rest []
    else splitSlashAux rest (c :: acc)

def splitSlash (s : String) : List String := splitSlashAux s.data []

/-- The method DataCache.set, recursing over the key list. -/
def dataCacheSetKeys (f : String → Option PyObj) :
    List String → PyObj → Except Unit (String → Option PyObj)
  | [], _ => .error ()
  | k :: rest, v =>
    if rest = [] then .ok (dSet f k v)
    else
      match f k with
      | some (.dict sub) =>
        match dataCacheSetKeys sub rest v with
        | .ok sub2 => .ok (dSet f k (.dict sub2))
        | .error e => .error e
      | some _ => .error ()
      | Option.none =>
        match dataCacheSetKeys dEmpty rest v with
        | .ok sub2 => .ok (dSet f k (.dict sub2))
        | .error e => .error e

/-- The method DataCache.get, recursing over the key list; default is
returned as soon as the current value is not a dict or lacks the key. -/
def dataCacheGetKeys (default : PyObj) : PyObj → List String → PyObj
  | d, [] => d
  | d, k :: rest =>
    match d with
    | .dict entries =>
      match entries k with
      | some x => dataCacheGetKeys default x rest
      | Option.none => default
    | _ => default

/-- The method DataCache.delete, recursing over the key list. -/
def dataCacheDeleteKeys (f : String → Option PyObj) :
    List String → Bool × (String → Option PyObj)
  | [] => (false, f)
  | k :: rest =>
    if rest = [] then
      match f k with
      | some v => (!(v.isNone), dRemove f k)
      | Option.none => (false, f)
    else
      match f k with
      | some (.dict sub) =>
        let r := dataCacheDeleteKeys sub rest
        (r.1, dSet f k (.dict r.2))
      | _ => (false, f)

def DataCache.set (c : String → Option PyObj) (p : String) (v : PyObj) :
    Except Unit (String → Option PyObj) :=
  dataCacheSetKeys c (splitSlash p) v

def DataCache.get (c : String → Option PyObj) (p : String) : PyObj :=
  dataCacheGetKeys PyObj.none (.dict c) (splitSlash p)

/-- The method DataCache.exists (exists is reserved in Lean):
self.get(path, default=None) is not None. -/
def DataCache.path_exists (c : String → Option PyObj) (p : String) : Bool :=
  !(DataCache.get c p).isNone

def DataCache.delete (c : String → Option PyObj) (p : String) :
    Bool × (String → Option PyObj) :=
  dataCacheDeleteKeys c (splitSlash p)

/-- A slash split always produces at least one segment. -/
theorem splitSlashAux_cons (cs acc : List Char) :
    ∃ k ks, splitSlashAux cs acc = k :: ks := by
  induction cs generalizing acc with
  | nil => exact ⟨_, _, rfl⟩
  | cons c rest ih =>
    by_cases h : c = '/'
    · exact ⟨String.mk acc.reverse, splitSlashAux rest [],
        by simp [splitSlashAux, h]⟩
    · obtain ⟨k, ks, hk⟩ := ih (c :: acc)
      exact ⟨k, ks, by simp [splitSlashAux, h, hk]⟩

/-- Reading a nonempty path off a non-dict value yields the default. -/
theorem getKeys_nondict (d : PyObj) (ks : List String) (hk : ks ≠ [])
    (hd : ∀ g, d ≠ PyObj.dict g) :
    dataCacheGetKeys PyObj.none d ks = PyObj.none := by
  obtain ⟨r, rs, rfl⟩ := List.exists_cons_of_ne_nil hk
  cases d with
  | dict g => exact absurd rfl (hd g)
  | none => rfl
  | int n => rfl
  | str s => rfl

/-- A successful set stores the value at exactly the written key list. -/
theorem setKeys_getKeys (ks : List String) (f f2 : String → Option PyObj)
    (v : PyObj) (h : dataCacheSetKeys f ks v = .ok f2) :
    dataCacheGetKeys PyObj.none (.dict f2) ks = v := by
  induction ks generalizing f f2 with
  | nil => exact absurd h (by simp [dataCacheSetKeys])
  | cons k rest ih =>
    by_cases hr : rest = []
    · subst hr
      simp [dataCacheSetKeys] at h
      subst h
      simp [dataCacheGetKeys, dSet]
    · rw [dataCacheSetKeys, if_neg hr] at h
      cases hf : f k with
      | none =>
        rw [hf] at h
        simp only [] at h
        cases hrec : dataCacheSetKeys dEmpty rest v with
        | ok sub2 =>
          rw [hrec] at h
          simp only [] at h
          cases h
          simp [dataCacheGetKeys, dSet]
          exact ih dEmpty sub2 hrec
        | error e =>
          rw [hrec] at h
          simp only [] at h
          exact Except.noConfusion h
      | some d =>
        rw [hf] at h
        cases d with
        | dict sub =>
          simp only [] at h
          cases hrec : dataCacheSetKeys sub rest v with
          | ok sub2 =>
            rw [hrec] at h
            simp only [] at h
            cases h
            simp [dataCacheGetKeys, dSet]
            exact ih sub sub2 hrec
          | error e =>
            rw [hrec] at h
            simp only [] at h
            exact Except.noConfusion h
        | none =>
          simp only [] at h
          exact Except.noConfusion h
        | int n =>
          simp only [] at h
          exact Except.noConfusion h
        | str s =>
          simp only [] at h
          exact Except.noConfusion h

/-- Delete succeeds exactly when the path resolves to a value other than
None (the pop is tested with is-not-None). -/
theorem deleteKeys_fst (ks : List String) (hne : ks ≠ [])
    (f : String → Option PyObj) :
    ((dataCacheDeleteKeys f ks).1 = true
      ↔ dataCacheGetKeys PyObj.none (.dict f) ks ≠ PyObj.none) := by
  induction ks generalizing f with
  | nil => exact absurd rfl hne
  | cons k rest ih =>
    by_cases hr : rest = []
    · subst hr
      cases hf : f k with
      | none => simp [dataCacheDeleteKeys, dataCacheGetKeys, hf]
      | some v =>
        cases v <;> simp [dataCacheDeleteKeys, dataCacheGetKeys, hf, PyObj.isNone]
    · rw [dataCacheDeleteKeys, if_neg hr]
      cases hf : f k with
      | none => simp [dataCacheGetKeys, hf]
      | some d =>
        cases d with
        | dict sub =>
          rw [dataCacheGetKeys]
          simp only [hf]
          exact ih hr sub
        | none =>
          have hg := getKeys_nondict PyObj.none rest hr
            (fun g hg => PyObj.noConfusion hg)
          simp [dataCacheGetKeys, hf, hg]
        | int n =>
          have hg := getKeys_nondict (PyObj.int n) rest hr
            (fun g hg => PyObj.noConfusion hg)
          simp [dataCacheGetKeys, hf, hg]
        | str s =>
          have hg := getKeys_nondict (PyObj.str s) rest hr
            (fun g hg => PyObj.noConfusion hg)
          simp [dataCacheGetKeys, hf, hg]

/-- After a delete that returned true, the path resolves to absent. -/
theorem deleteKeys_get_after (ks : List String) (f : String → Option PyObj)
    (h : (dataCacheDeleteKeys f ks).1 = true) :
    dataCacheGetKeys PyObj.none (.dict (dataCacheDeleteKeys f ks).2) ks
      = PyObj.none := by
  induction ks generalizing f with
  | nil => exact absurd h (by simp [dataCacheDeleteKeys])
  | cons k rest ih =>
    by_cases hr : rest = []
    · subst hr
      cases hf : f k with
      | none => simp [dataCacheDeleteKeys, hf] at h
      | some v =>
        rw [dataCacheDeleteKeys] at h ⊢
        simp only [if_pos rfl, hf] at h ⊢
        simp [dataCacheGetKeys, dRemove]
    · rw [dataCacheDeleteKeys, if_neg hr] at h ⊢
      cases hf : f k with
      | none => simp [hf] at h
      | some d =>
        cases d with
        | dict sub =>
          rw [hf] at h
          simp only [] at h ⊢
          rw [dataCacheGetKeys]
          simp only [dSet, if_pos rfl]
          exact ih sub h
        | none => simp [hf] at h
        | int n => simp [hf] at h
        | str s => simp [hf] at h

/-- Deleting one leaf leaves a sibling path (same parent, different final
key) exactly as it was. -/
theorem deleteKeys_sibling (base : List String) (f : String → Option PyObj)
    (k1 k2 : String) (hk : k1 ≠ k2) :
    dataCacheGetKeys PyObj.none
        (.dict (dataCacheDeleteKeys f (base ++ [k1])).2) (base ++ [k2])
      = dataCacheGetKeys PyObj.none (.dict f) (base ++ [k2]) := by
  have hk2 : ¬ (k2 = k1) := fun hh => hk hh.symm
  induction base generalizing f with
  | nil =>
    cases hf : f k1 with
    | none => simp [dataCacheDeleteKeys, hf]
    | some v =>
      simp [dataCacheDeleteKeys, hf, dataCacheGetKeys, dRemove, hk2]
  | cons k base2 ih =>
    have hne : base2 ++ [k1] ≠ [] := by simp
    rw [show ((k :: base2) ++ [k1]) = k :: (base2 ++ [k1]) from rfl,
      dataCacheDeleteKeys, if_neg hne]
    cases hf : f k with
    | none => simp [hf]
    | some d =>
      cases d with
      | dict sub =>
        simp only []
        rw [show ((k :: base2) ++ [k2]) = k :: (base2 ++ [k2]) from rfl]
        simp [dataCacheGetKeys, dSet, hf]
        exact ih sub
      | none => simp [hf]
      | int n => simp [hf]
      | str s => simp [hf]

/-- Claim C5 (amended): the store contract holds for every stored value
other than None.  After a successful set(p, v) with v not None, get(p)
returns v and exists(p) is true; get, exists and delete on a path of the
empty store return absent, false and false without raising; delete(p)
returns true exactly when p resolves to a value other than None, and after
a delete that returned true, get(p) is absent; deleting a leaf leaves any
sibling path (same parent, different final key) unchanged.  (The value None
is excluded: the store represents absence as None, so exists and the
removed-test of delete conflate a stored None with a missing path.) -/
theorem store_contract_nonnone (c c2 : String → Option PyObj) (p q : String)
    (v : PyObj) :
    (v ≠ PyObj.none → DataCache.set c p v = .ok c2 →
      DataCache.get c2 p = v ∧ DataCache.path_exists c2 p = true)
    ∧ (DataCache.get dEmpty q = PyObj.none
        ∧ DataCache.path_exists dEmpty q = false
        ∧ (DataCache.delete dEmpty q).1 = false)
    ∧ ((DataCache.delete c p).1 = true ↔ DataCache.get c p ≠ PyObj.none)
    ∧ ((DataCache.delete c p).1 = true →
        DataCache.get (DataCache.delete c p).2 p = PyObj.none)
    ∧ (∀ (f : String → Option PyObj) (base : List String) (k1 k2 : String),
        k1 ≠ k2 →
        dataCacheGetKeys PyObj.none
            (PyObj.dict (dataCacheDeleteKeys f (base ++ [k1])).2) (base ++ [k2])
          = dataCacheGetKeys PyObj.none (PyObj.dict f) (base ++ [k2])) := by
  refine ⟨?_, ?_, ?_, ?_, ?_⟩
  · intro hv hset
    have hget : DataCache.get c2 p = v :=
      setKeys_getKeys (splitSlash p) c c2 v hset
    refine ⟨hget, ?_⟩
    rw [DataCache.path_exists, hget]
    cases v with
    | none => exact absurd rfl hv
    | int n => rfl
    | str s => rfl
    | dict g => rfl
  · obtain ⟨k, ks, hk⟩ := splitSlashAux_cons q.data []
    have hsplit : splitSlash q = k :: ks := hk
    have hget : DataCache.get dEmpty q = PyObj.none := by
      rw [DataCache.get, hsplit]
      simp [dataCacheGetKeys, dEmpty]
    refine ⟨hget, ?_, ?_⟩
    · rw [DataCache.path_exists, hget]
      rfl
    · rw [DataCache.delete, hsplit]
      by_cases hks : ks = [] <;>
        simp [dataCacheDeleteKeys, dEmpty, hks]
  · obtain ⟨k, ks, hk⟩ := splitSlashAux_cons p.data []
    have hne : splitSlash p ≠ [] := by
      rw [show splitSlash p = k :: ks from hk]
      simp
    exact deleteKeys_fst (splitSlash p) hne c
  · exact deleteKeys_get_after (splitSlash p) c
  · exact fun f base k1 k2 hk => deleteKeys_sibling base f k1 k2 hk

/-- The store after set("a", None) on the empty store. -/
def c5Cache : String → Option PyObj :=
  match DataCache.set dEmpty "a" PyObj.none with
  | .ok c => c
  | .error _ => dEmpty

/-- Counterexample to claim C5 as stated, at the value None: after
set("a", None) the binding exists in the store, yet exists("a") returns
false, and delete("a") removes the binding yet returns false -- against the
claim that after set(p, v) exists(p) is true and that delete returns true
exactly when something was removed. -/
theorem store_none_value_cex :
    DataCache.set dEmpty "a" PyObj.none = .ok c5Cache
    ∧ c5Cache "a" = some PyObj.none
    ∧ DataCache.path_exists c5Cache "a" = false
    ∧ (DataCache.delete c5Cache "a").1 = false
    ∧ (DataCache.delete c5Cache "a").2 "a" = Option.none := by
  refine ⟨rfl, rfl, rfl, rfl, rfl⟩

/-- The store after set("a/b/c", 1) on the empty store. -/
def c5okCache : String → Option PyObj :=
  match DataCache.set dEmpty "a/b/c" (PyObj.int 1) with
  | .ok c => c
  | .error _ => dEmpty

/-- Witness for claim C5 at concrete paths: set("a/b/c", 1) then read it
back, delete it, and check the sibling path a/b/d is untouched. -/
theorem store_contract_nonnone_witness :
    DataCache.get c5okCache "a/b/c" = PyObj.int 1
    ∧ DataCache.path_exists c5okCache "a/b/c" = true
    ∧ DataCache.get (DataCache.delete c5okCache "a/b/c").2 "a/b/c" = PyObj.none
    ∧ dataCacheGetKeys PyObj.none
        (PyObj.dict (dataCacheDeleteKeys c5okCache (["a", "b"] ++ ["c"])).2)
        (["a", "b"] ++ ["d"])
      = dataCacheGetKeys PyObj.none (PyObj.dict c5okCache) (["a", "b"] ++ ["d"]) :=
  ⟨((store_contract_nonnone dEmpty c5okCache "a/b/c" "z" (PyObj.int 1)).1
      (fun h => PyObj.noConfusion h) rfl).1,
   ((store_contract_nonnone dEmpty c5okCache "a/b/c" "z" (PyObj.int 1)).1
      (fun h => PyObj.noConfusion h) rfl).2,
   (store_contract_nonnone c5okCache c5okCache "a/b/c" "z" (PyObj.int 1)).2.2.2.1 rfl,
   (store_contract_nonnone c5okCache c5okCache "a/b/c" "z" (PyObj.int 1)).2.2.2.2
     c5okCache ["a", "b"] "c" "d" (by decide)⟩
